import Mathlib

/-!
Shallow embedding of the soroban-env-host invocation/call-stack transaction
engine: invocation frames, rollback points, the guarded-scope protocol
(`with_frame`), the re-entrancy policy of `call_n_internal`, the diagnostic
event emitters, and the handle-based host object store.

Sources embedded:
* src/soroban-env-host/src/host/frame.rs
* src/soroban-env-host/src/events/diagnostic.rs
* src/soroban-env-host/src/host_object.rs

Conventions of the embedding:
* The frame stack `context` is a `List Frame` whose HEAD is the TOP of the
  stack (the most recently pushed frame). `push` conses, `pop` drops the
  head, `last()` of the Rust `Vec` is the head, and the source's top-down
  iteration `iter().rev()` is plain head-to-tail traversal.
* Rust `Result<T, HostError>` is `Except HostError T`. A Rust panic or a
  failed internal invariant assertion (`expect`, `assert_eq!`) — a fatal
  process abort, not a reported error — is the `Outcome.fatal` case.
* Machine integers carried by values are modelled as `Nat`/`Int`; no claim
  verified here depends on integer overflow behaviour.
* The `Host` struct's interior-mutability cells become explicit state
  passing over `HostState`; `try_borrow_mut()` on the authorization manager
  succeeding is the `authAvailable` flag (the manager is not currently
  re-entered/in-use).
* The model corresponds to the production compilation: the
  `cfg(test, feature = "testutils")` native-contract dispatch table of
  `call_n_internal` is compiled out, but the `TestContract` frame variant is
  kept since the re-entrancy scan and current-contract-id readers match on it.
-/

namespace Soroban

/-- soroban-env-common XDR `ScErrorType` (the cases this core uses). -/
inductive ScErrorType
  | contract
  | wasmVm
  | context
  | storage
  | object
  | crypto
  | events
  | budget
  | value
  | auth
  deriving DecidableEq

/-- soroban-env-common XDR `ScErrorCode` (the cases this core uses). -/
inductive ScErrorCode
  | arithDomain
  | indexBounds
  | invalidInput
  | missingValue
  | existingValue
  | exceededLimit
  | invalidAction
  | internalError
  | unexpectedType
  | unexpectedSize
  deriving DecidableEq

/-- soroban-env-common `Error`: an error type paired with an error code. -/
structure Error where
  type : ScErrorType
  code : ScErrorCode
  deriving DecidableEq

/-- `HostError`: structured error reported to the caller. The debug-info /
message payload is modelled as a plain string. -/
structure HostError where
  error : Error
  msg : String
  deriving DecidableEq

/-- XDR `Hash`: a 32-byte contract identifier, modelled by its numeric value
(the claims only compare identifiers for equality). -/
structure Hash where
  id : Nat
  deriving DecidableEq

/-- `RawVal`: a 64-bit tagged value. Only the tags this core inspects are
distinguished; `Error::try_from` succeeds exactly on the `errorVal` tag. -/
inductive RawVal
  | void
  | u32val (n : Nat)
  | errorVal (e : Error)
  | obj (handle : Nat)
  | symSmall (s : String)
  deriving DecidableEq

/-- `Error::try_from(RawVal)`: succeeds iff the value carries the Error tag. -/
def Error.tryFrom : RawVal → Option Error
  | .errorVal e => some e
  | _ => none

/-- XDR `HostFunctionType` discriminant (frame.rs `Frame::HostFunction`). -/
inductive HostFunctionType
  | invokeContract
  | createContract
  | uploadContractWasm
  deriving DecidableEq

/-- The VM state reachable from a `ContractVM` frame; only its `contract_id`
field is read by this core (re-entrancy scan, current-contract readers). -/
structure Vm where
  contract_id : Hash
  deriving DecidableEq

/-- frame.rs `TestContractFrame`: test-only native contract frame; `panic` is
the single-slot cell transporting a structured error out of a caught panic. -/
structure TestContractFrame where
  id : Hash
  func : String
  args : List RawVal
  panic : Option Error
  deriving DecidableEq

/-- frame.rs `Frame`: one active invocation. Function symbols are modelled as
their decoded names (`String`). -/
inductive Frame
  | contractVM (vm : Vm) (func : String) (args : List RawVal)
  | hostFunction (ty : HostFunctionType)
  | token (id : Hash) (func : String) (args : List RawVal)
  | testContract (tc : TestContractFrame)
  deriving DecidableEq

/-! ### Host object store (host_object.rs) -/

/-- `HostVec`: a metered vector of values (metering elided). -/
abbrev HostVec := List RawVal

/-- `HostMap`: a metered ordered map of values (metering elided). -/
abbrev HostMap := List (RawVal × RawVal)

structure U64 where
  n : Nat
  deriving DecidableEq

structure I64 where
  n : Int
  deriving DecidableEq

structure TimePoint where
  t : Nat
  deriving DecidableEq

structure Duration where
  d : Nat
  deriving DecidableEq

structure U128 where
  n : Nat
  deriving DecidableEq

structure I128 where
  n : Int
  deriving DecidableEq

structure U256 where
  n : Nat
  deriving DecidableEq

structure I256 where
  n : Int
  deriving DecidableEq

structure ScBytes where
  bytes : List Nat
  deriving DecidableEq

structure ScString where
  s : String
  deriving DecidableEq

structure ScSymbol where
  s : String
  deriving DecidableEq

inductive ScContractExecutable
  | wasmRef (hash : Hash)
  | token
  deriving DecidableEq

structure ScAddress where
  a : Nat
  deriving DecidableEq

structure ScNonceKey where
  nonce_address : ScAddress
  deriving DecidableEq

/-- host_object.rs `HostObject`: the closed set of store entry kinds. -/
inductive HostObject
  | vec (v : HostVec)
  | map (m : HostMap)
  | u64 (x : U64)
  | i64 (x : I64)
  | timePoint (x : TimePoint)
  | duration (x : Duration)
  | u128 (x : U128)
  | i128 (x : I128)
  | u256 (x : U256)
  | i256 (x : I256)
  | bytes (x : ScBytes)
  | string (x : ScString)
  | symbol (x : ScSymbol)
  | contractExecutable (x : ScContractExecutable)
  | address (x : ScAddress)
  | nonceKey (x : ScNonceKey)
  deriving DecidableEq

/-- host_object.rs trait `HostObjectType`: each kind `α` can be injected into
a `HostObject` and extracted back, at its own kind only. An implementation
record stands for one expansion of `declare_host_object_type!`. -/
structure HostObjectType (α : Type) where
  inject : α → HostObject
  tryExtract : HostObject → Option α

def hostObjectTypeHostVec : HostObjectType HostVec where
  inject := HostObject.vec
  tryExtract
    | .vec v => some v
    | _ => none

def hostObjectTypeHostMap : HostObjectType HostMap where
  inject := HostObject.map
  tryExtract
    | .map m => some m
    | _ => none

def hostObjectTypeU64 : HostObjectType U64 where
  inject := HostObject.u64
  tryExtract
    | .u64 x => some x
    | _ => none

def hostObjectTypeI64 : HostObjectType I64 where
  inject := HostObject.i64
  tryExtract
    | .i64 x => some x
    | _ => none

def hostObjectTypeTimePoint : HostObjectType TimePoint where
  inject := HostObject.timePoint
  tryExtract
    | .timePoint x => some x
    | _ => none

def hostObjectTypeDuration : HostObjectType Duration where
  inject := HostObject.duration
  tryExtract
    | .duration x => some x
    | _ => none

def hostObjectTypeU128 : HostObjectType U128 where
  inject := HostObject.u128
  tryExtract
    | .u128 x => some x
    | _ => none

def hostObjectTypeI128 : HostObjectType I128 where
  inject := HostObject.i128
  tryExtract
    | .i128 x => some x
    | _ => none

def hostObjectTypeU256 : HostObjectType U256 where
  inject := HostObject.u256
  tryExtract
    | .u256 x => some x
    | _ => none

def hostObjectTypeI256 : HostObjectType I256 where
  inject := HostObject.i256
  tryExtract
    | .i256 x => some x
    | _ => none

def hostObjectTypeScBytes : HostObjectType ScBytes where
  inject := HostObject.bytes
  tryExtract
    | .bytes x => some x
    | _ => none

def hostObjectTypeScString : HostObjectType ScString where
  inject := HostObject.string
  tryExtract
    | .string x => some x
    | _ => none

def hostObjectTypeScSymbol : HostObjectType ScSymbol where
  inject := HostObject.symbol
  tryExtract
    | .symbol x => some x
    | _ => none

def hostObjectTypeScContractExecutable : HostObjectType ScContractExecutable where
  inject := HostObject.contractExecutable
  tryExtract
    | .contractExecutable x => some x
    | _ => none

def hostObjectTypeScAddress : HostObjectType ScAddress where
  inject := HostObject.address
  tryExtract
    | .address x => some x
    | _ => none

def hostObjectTypeScNonceKey : HostObjectType ScNonceKey where
  inject := HostObject.nonceKey
  tryExtract
    | .nonceKey x => some x
    | _ => none

/-! ### Events, authorization manager, budget, host state -/

/-- XDR `ContractEventType`. -/
inductive ContractEventType
  | contract
  | system
  | diagnostic
  deriving DecidableEq

/-- events `InternalContractEvent`: `contract_id` and `topics` are object
store handles (`BytesObject` / `VecObject`). -/
structure InternalContractEvent where
  type : ContractEventType
  contract_id : Option Nat
  topics : Nat
  data : RawVal
  deriving DecidableEq

/-- An entry of the internal events buffer (`InternalEvent`). Only the
`StructuredDebug` variant is produced by the embedded code. -/
inductive InternalEvent
  | structuredDebug (ce : InternalContractEvent)
  deriving DecidableEq

/-- The authorization manager is an external collaborator (spec section 6);
its observable state here is the stack of frames it has been notified of. -/
structure AuthorizationManager where
  frames : List Frame
  deriving DecidableEq

/-- `AuthorizationManagerSnapshot`: `snapshot()` returns the full manager
state as an opaque value; `rollback` restores it wholesale. -/
abbrev AuthorizationManagerSnapshot := AuthorizationManager

/-- Modelled from the spec: authorization manager `pushFrame` hook (section 6,
implementation not under src/) — records the new frame. -/
def AuthorizationManager.pushFrame (am : AuthorizationManager) (f : Frame) : AuthorizationManager :=
  { am with frames := f :: am.frames }

/-- Modelled from the spec: authorization manager `popFrame` hook (section 6,
implementation not under src/). -/
def AuthorizationManager.popFrame (am : AuthorizationManager) : AuthorizationManager :=
  { am with frames := am.frames.tail }

/-- Modelled from the spec: `snapshot()` returns an opaque snapshot of the
manager state (section 6, implementation not under src/). -/
def AuthorizationManager.snapshot (am : AuthorizationManager) : AuthorizationManagerSnapshot :=
  am

/-- Modelled from the spec: `rollback(opaque)` restores the manager to the
snapshot (section 6, implementation not under src/). -/
def AuthorizationManager.rollback (_am : AuthorizationManager)
    (s : AuthorizationManagerSnapshot) : AuthorizationManager :=
  s

/-- Modelled from the spec: `maybe_emulate_authentication` — a no-op in
enforcing mode (section 6, implementation not under src/); modelled as the
enforcing-mode no-op. -/
def AuthorizationManager.maybe_emulate_authentication
    (am : AuthorizationManager) : AuthorizationManager :=
  am

/-- diagnostic.rs `DiagnosticLevel`. -/
inductive DiagnosticLevel
  | none
  | debug
  deriving DecidableEq

/-- The metering budget (external collaborator, spec section 6): a consumption
counter against a limit. -/
structure Budget where
  limit : Nat
  used : Nat
  deriving DecidableEq

/-- Modelled from the spec: `charge(cost_kind, quantity)` fails with a
resource-exhaustion error when the budget is insufficient (section 6). -/
def Budget.charge (b : Budget) (cost : Nat) : Option Budget :=
  if b.used + cost ≤ b.limit then some { b with used := b.used + cost } else none

/-- The mutable execution context owned by the `Host`: each field models one
of the `RefCell`s of `HostImpl`. `authAvailable` models whether
`try_borrow_mut()` on the authorization manager succeeds (the manager is not
currently re-entered/in-use). -/
structure HostState where
  storage : List (Nat × Nat)
  events : List InternalEvent
  context : List Frame
  objects : List HostObject
  authorization_manager : AuthorizationManager
  authAvailable : Bool
  diagnostic_level : DiagnosticLevel
  budget : Budget
  deriving DecidableEq

/-- frame.rs `RollbackPoint`: Storage Map copy, Event Log length, optional
authorization manager snapshot. -/
structure RollbackPoint where
  storage : List (Nat × Nat)
  events : Nat
  auth : Option AuthorizationManagerSnapshot
  deriving DecidableEq

/-- The result of running host code: success, a reported `HostError`, or a
fatal process abort (panic / failed internal invariant assertion). -/
inductive Outcome (α : Type)
  | ok (v : α)
  | err (e : HostError)
  | fatal
  deriving DecidableEq

def Outcome.isErr {α : Type} : Outcome α → Bool
  | .err _ => true
  | _ => false

/-! ### push_frame / pop_frame / with_frame (frame.rs) -/

/-- frame.rs `Host::push_frame`: best-effort notifies the authorization
manager (skipped, and the snapshot absent, when the manager is in use),
pushes the frame, and returns a `RollbackPoint` capturing the Storage Map,
the Event Log length and the optional auth snapshot. The notification hook's
own failure path is elided (the hook is modelled as total). -/
def HostState.push_frame (h : HostState) (frame : Frame) : HostState × RollbackPoint :=
  let auth_snapshot : Option AuthorizationManagerSnapshot :=
    if h.authAvailable then some ((h.authorization_manager.pushFrame frame).snapshot)
    else none
  let am : AuthorizationManager :=
    if h.authAvailable then h.authorization_manager.pushFrame frame
    else h.authorization_manager
  let h1 : HostState := { h with authorization_manager := am, context := frame :: h.context }
  (h1, { storage := h1.storage, events := h1.events.length, auth := auth_snapshot })

/-- The authorization manager state `pop_frame` computes before any
rollback: the manager's own frame is popped when the manager is available
(`try_borrow_mut` succeeds), and the emulate-authentication hook runs when
the frame stack became empty (`rest` is what remains of the context). -/
def afterPopManager (h : HostState) (rest : List Frame) : AuthorizationManager :=
  let am1 : AuthorizationManager :=
    if h.authAvailable then h.authorization_manager.popFrame
    else h.authorization_manager
  if rest.isEmpty then am1.maybe_emulate_authentication
  else am1

/-- frame.rs `Host::pop_frame`: pops the top frame (`none`, a fatal abort,
when the stack is empty — the `.expect("unmatched host frame push/pop")`),
pops the authorization manager frame when the manager is available, runs the
emulate-authentication hook when the stack became empty, and, when a
`RollbackPoint` is supplied, replaces the Storage Map wholesale, truncates
the Event Log to the recorded length, and restores the auth snapshot when one
was captured. -/
def HostState.pop_frame (h : HostState) (orp : Option RollbackPoint) : Option HostState :=
  match h.context with
  | [] => none
  | _ :: rest =>
    let am2 : AuthorizationManager := afterPopManager h rest
    some (match orp with
      | none => { h with context := rest, authorization_manager := am2 }
      | some rp =>
        let am3 : AuthorizationManager :=
          match rp.auth with
          | some auth_rp => am2.rollback auth_rp
          | none => am2
        { h with
            context := rest
            authorization_manager := am3
            storage := rp.storage
            events := h.events.take rp.events })

/-- The fixed metering cost of `ContractCostType::GuardFrame` (cost value
owned by the external cost model). -/
def guardFrameCost : Nat := 1

def budgetExceededMsg : String := "budget limit exceeded"

def budgetExceededError : HostError :=
  { error := { type := ScErrorType.budget, code := ScErrorCode.exceededLimit }
    msg := budgetExceededMsg }

def escalateOkErrorMsg : String := "escalating Ok(Error) frame-exit to Err(Error)"

/-- frame.rs `with_frame`, lines 208-216: a success whose returned value
decodes as an `Error` is escalated into a failure before deciding
commit/rollback. -/
def escalateFrameExit : Outcome RawVal → Outcome RawVal
  | .ok v =>
    match Error.tryFrom v with
    | some e => .err { error := e, msg := escalateOkErrorMsg }
    | none => .ok v
  | r => r

/-- The tail of `with_frame` after the body has run: escalate, pop with
rollback on any failure path / pop with commit otherwise, and assert that the
stack depth is restored (`assert_eq!(start_depth, end_depth)` — a mismatch,
or a pop of an empty stack, is a fatal abort). -/
def with_frame_finish (start_depth : Nat) (rp : RollbackPoint) :
    HostState × Outcome RawVal → HostState × Outcome RawVal
  | (h3, Outcome.fatal) => (h3, Outcome.fatal)
  | (h3, res0) =>
    let res := escalateFrameExit res0
    match h3.pop_frame (if res.isErr then some rp else none) with
    | none => (h3, Outcome.fatal)
    | some h4 =>
      if h4.context.length = start_depth then (h4, res) else (h4, Outcome.fatal)

/-- frame.rs `Host::with_frame`: charges the `GuardFrame` cost, pushes the
frame, runs the body, escalates `Ok(Error)` exits, pops with rollback on
failure and with commit on success, and fatally asserts stack balance. -/
def HostState.with_frame (h : HostState) (frame : Frame)
    (f : HostState → HostState × Outcome RawVal) : HostState × Outcome RawVal :=
  match h.budget.charge guardFrameCost with
  | none => (h, Outcome.err budgetExceededError)
  | some b =>
    let h1 : HostState := { h with budget := b }
    let p := h1.push_frame frame
    with_frame_finish h1.context.length p.2 (f p.1)

/-! ### A language of guarded-scope bodies

An `Invocation` is a body closure as the spec's "invocation" runs one: a
sequence of storage writes and event records, a final success or failure, and
nested guarded scopes (`with_frame` around a nested body, propagating its
failure). This is the class of bodies quantified over by the atomicity and
stack-balance claims. -/
inductive Invocation
  | ret (v : RawVal)
  | fail (e : HostError)
  | put (key val : Nat) (k : Invocation)
  | emit (ev : InternalEvent) (k : Invocation)
  | call (fr : Frame) (inner : Invocation) (k : Invocation)

/-- Run an `Invocation` body against the host state. The `call` case inlines
`HostState.with_frame` applied to the nested body (see
`runInvocation_call`, which folds it back) so the recursion is structural. -/
def runInvocation : Invocation → HostState → HostState × Outcome RawVal
  | .ret v, h => (h, Outcome.ok v)
  | .fail e, h => (h, Outcome.err e)
  | .put key val i, h => runInvocation i { h with storage := (key, val) :: h.storage }
  | .emit ev i, h => runInvocation i { h with events := h.events ++ [ev] }
  | .call fr inner k, h =>
    let r :=
      match h.budget.charge guardFrameCost with
      | none => (h, Outcome.err budgetExceededError)
      | some b =>
        let h1 : HostState := { h with budget := b }
        let p := h1.push_frame fr
        with_frame_finish h1.context.length p.2 (runInvocation inner p.1)
    match r.2 with
    | Outcome.ok _ => runInvocation k r.1
    | Outcome.err e => (r.1, Outcome.err e)
    | Outcome.fatal => (r.1, Outcome.fatal)

/-! ### Current-frame readers (frame.rs) -/

def noContractRunningMsg : String := "no contract running"

/-- The `Context`/`MissingValue` error raised by `with_current_frame` on an
empty context stack. -/
def noContractRunningError : HostError :=
  { error := { type := ScErrorType.context, code := ScErrorCode.missingValue }
    msg := noContractRunningMsg }

/-- frame.rs `with_current_frame`: applies `f` to the top frame, erroring
when the context stack is empty. -/
def HostState.with_current_frame {α : Type} (h : HostState)
    (f : Frame → Except HostError α) : Except HostError α :=
  match h.context.head? with
  | none => Except.error noContractRunningError
  | some fr => f fr

/-- frame.rs `with_current_frame_opt`: same, but passes `none` instead of
erroring when there is no current frame. -/
def HostState.with_current_frame_opt {α : Type} (h : HostState)
    (f : Option Frame → Except HostError α) : Except HostError α :=
  f h.context.head?

/-- frame.rs `get_current_contract_id_opt_internal` (the `metered_clone` of
the id is elided — cloning is modelled as free). -/
def HostState.get_current_contract_id_opt_internal (h : HostState) :
    Except HostError (Option Hash) :=
  h.with_current_frame fun frame =>
    match frame with
    | Frame.contractVM vm _ _ => Except.ok (some vm.contract_id)
    | Frame.hostFunction _ => Except.ok none
    | Frame.token id _ _ => Except.ok (some id)
    | Frame.testContract tc => Except.ok (some tc.id)

def currentContractMissingMsg : String := "Current context has no contract ID"

def currentContractMissingError : HostError :=
  { error := { type := ScErrorType.context, code := ScErrorCode.missingValue }
    msg := currentContractMissingMsg }

/-- frame.rs `get_current_contract_id_internal`. -/
def HostState.get_current_contract_id_internal (h : HostState) : Except HostError Hash :=
  match h.get_current_contract_id_opt_internal with
  | Except.error e => Except.error e
  | Except.ok (some id) => Except.ok id
  | Except.ok none => Except.error currentContractMissingError

/-! ### Diagnostic event emitters (diagnostic.rs) -/

/-- diagnostic.rs `is_debug`. -/
def HostState.is_debug (h : HostState) : Bool :=
  match h.diagnostic_level with
  | DiagnosticLevel.debug => true
  | DiagnosticLevel.none => false

/-- Handles are `u32` (host_object.rs `new_from_handle(handle: u32)`), so the
store can hold at most `2 ^ 32` entries. -/
def handleLimit : Nat := 2 ^ 32

def objectHandleSpaceMsg : String := "object handle space exhausted"

def objectHandleSpaceError : HostError :=
  { error := { type := ScErrorType.object, code := ScErrorCode.exceededLimit }
    msg := objectHandleSpaceMsg }

/-- Modelled from the spec: `add_host_object` (host.rs, not under src/)
appends a new entry to the append-only Object Store and returns its fresh
opaque integer handle (spec section 3). Handles are `u32`
(host_object.rs `new_from_handle(handle: u32)`), so payload construction
fails once the handle space is exhausted — the spec's "inability to build an
event payload" (section 7) is such an explicitly-propagated failure. -/
def HostState.add_host_object (h : HostState) (obj : HostObject) :
    HostState × Except HostError Nat :=
  if h.objects.length < handleLimit then
    ({ h with objects := h.objects ++ [obj] }, Except.ok h.objects.length)
  else
    (h, Except.error objectHandleSpaceError)

/-- diagnostic.rs `hash_to_bytesobj`: stores the 32-byte id as a Bytes
object (the `try_into` length bound cannot fail for a 32-byte hash). -/
def HostState.hash_to_bytesobj (h : HostState) (hash : Hash) :
    HostState × Except HostError Nat :=
  h.add_host_object (HostObject.bytes { bytes := [hash.id] })

/-- diagnostic.rs `get_current_contract_id_unmetered`: will not return an
error when the frame is missing. -/
def HostState.get_current_contract_id_unmetered (h : HostState) :
    Except HostError (Option Hash) :=
  h.with_current_frame_opt fun frame =>
    match frame with
    | some (Frame.contractVM vm _ _) => Except.ok (some vm.contract_id)
    | some (Frame.hostFunction _) => Except.ok none
    | some (Frame.token id _ _) => Except.ok (some id)
    | some (Frame.testContract tc) => Except.ok (some tc.id)
    | none => Except.ok none

/-- Rust's `?` operator on a state-threading fallible step: on success the
continuation runs from the new state; an error propagates with the state at
failure. -/
def andThen {α β : Type} (p : HostState × Except HostError α)
    (f : HostState → α → HostState × Except HostError β) :
    HostState × Except HostError β :=
  match p with
  | (h, Except.error e) => (h, Except.error e)
  | (h, Except.ok a) => f h a

/-- Rust's `?` operator on a stateless fallible step (the state is the one in
scope at the call). -/
def exStep {α β : Type} (h : HostState) (r : Except HostError α)
    (f : α → HostState × Except HostError β) : HostState × Except HostError β :=
  match r with
  | Except.error e => (h, Except.error e)
  | Except.ok a => f a

/-- Rust's `?` operator where the surrounding function reports an `Outcome`. -/
def andThenOutcome {α : Type} (p : HostState × Except HostError α)
    (f : HostState → α → HostState × Outcome RawVal) : HostState × Outcome RawVal :=
  match p with
  | (h, Except.error e) => (h, Outcome.err e)
  | (h, Except.ok a) => f h a

/-- diagnostic.rs `current_contract_bytesobject_option`. -/
def HostState.current_contract_bytesobject_option (h : HostState) :
    HostState × Except HostError (Option Nat) :=
  exStep h h.get_current_contract_id_unmetered fun calling_hash =>
    match calling_hash with
    | none => (h, Except.ok none)
    | some ch => andThen (h.hash_to_bytesobj ch) fun h1 o => (h1, Except.ok (some o))

/-- diagnostic.rs `record_system_debug_contract_event`: records a
`StructuredDebug` event into the events buffer (the buffer's `record` is
metered, and diagnostics run under the free-budget scope, so it is total
here). -/
def HostState.record_system_debug_contract_event (h : HostState)
    (ty : ContractEventType) (contract_id : Option Nat) (topics : Nat)
    (data : RawVal) : HostState × Except HostError Unit :=
  ({ h with
      events := h.events ++
        [InternalEvent.structuredDebug
          { type := ty, contract_id := contract_id, topics := topics, data := data }] },
   Except.ok ())

def symbolTooLongMsg : String := "symbol too long for SymbolSmall"

def symbolTooLongError : HostError :=
  { error := { type := ScErrorType.value, code := ScErrorCode.invalidInput }
    msg := symbolTooLongMsg }

/-- soroban-env-common `SymbolSmall::try_from_str`: a small symbol holds at
most 9 characters (the character-repertoire check is elided — all symbols in
this core are alphanumeric/underscore). -/
def SymbolSmall.try_from_str (s : String) : Except HostError RawVal :=
  if s.length ≤ 9 then Except.ok (RawVal.symSmall s) else Except.error symbolTooLongError

def stringTooLongMsg : String := "string too long for StringM"

def stringTooLongError : HostError :=
  { error := { type := ScErrorType.value, code := ScErrorCode.invalidInput }
    msg := stringTooLongMsg }

/-- XDR `StringM::from_str`: bounded at `u32::MAX` bytes. -/
def StringM.from_str (s : String) : Except HostError String :=
  if s.length < handleLimit then Except.ok s else Except.error stringTooLongError

def errorSymStr : String := "error"

/-- diagnostic.rs `ERROR_SYM` (a compile-time-checked constant). -/
def ERROR_SYM : RawVal := RawVal.symSmall errorSymStr

/-- diagnostic.rs `err_diagnostics`: topics = ["error", error-code],
data = [message, ...args]. A no-op when diagnostics are off; otherwise runs
under the free-budget scope (`with_free_budget` — the modelled constructors
charge nothing). -/
def HostState.err_diagnostics (h : HostState) (error : Error) (msg : String)
    (args : List RawVal) : HostState × Except HostError Unit :=
  if h.is_debug = false then (h, Except.ok ())
  else
    andThen h.current_contract_bytesobject_option fun h1 contract_id =>
      andThen (h1.add_host_object (HostObject.vec [ERROR_SYM, RawVal.errorVal error]))
        fun h2 topicsObj =>
        exStep h2 (StringM.from_str msg) fun msgStr =>
          andThen (h2.add_host_object (HostObject.string { s := msgStr }))
            fun h3 msgObj =>
              andThen (h3.add_host_object (HostObject.vec (RawVal.obj msgObj :: args)))
                fun h4 dataObj =>
                ({ h4 with
                    events := h4.events ++
                      [InternalEvent.structuredDebug
                        { type := ContractEventType.diagnostic
                          contract_id := contract_id
                          topics := topicsObj
                          data := RawVal.obj dataObj }] },
                 Except.ok ())

def fnCallSymStr : String := "fn_call"

/-- diagnostic.rs `fn_call_diagnostics`: topics =
["fn_call", called-contract-id, function-name], data = args-as-vector; the
calling contract is resolved from the current top-of-stack before the new
frame exists. A no-op when diagnostics are off. -/
def HostState.fn_call_diagnostics (h : HostState) (called_contract_id : Hash)
    (func : String) (args : List RawVal) : HostState × Except HostError Unit :=
  if h.is_debug = false then (h, Except.ok ())
  else
    andThen h.current_contract_bytesobject_option fun h1 calling_contract =>
      exStep h1 (SymbolSmall.try_from_str fnCallSymStr) fun fnCallSym =>
        andThen (h1.hash_to_bytesobj called_contract_id) fun h2 idObj =>
          andThen (h2.add_host_object (HostObject.vec
              [fnCallSym, RawVal.obj idObj, RawVal.symSmall func])) fun h3 topicsObj =>
            andThen (h3.add_host_object (HostObject.vec args)) fun h4 argsObj =>
              h4.record_system_debug_contract_event ContractEventType.diagnostic
                calling_contract topicsObj (RawVal.obj argsObj)

def fnReturnSymStr : String := "fn_return"

/-- diagnostic.rs `fn_return_diagnostics`: topics =
["fn_return", function-name], data = the single return value. A no-op when
diagnostics are off. -/
def HostState.fn_return_diagnostics (h : HostState) (contract_id : Hash)
    (func : String) (res : RawVal) : HostState × Except HostError Unit :=
  if h.is_debug = false then (h, Except.ok ())
  else
    exStep h (SymbolSmall.try_from_str fnReturnSymStr) fun fnReturnSym =>
      andThen (h.hash_to_bytesobj contract_id) fun h1 idObj =>
        andThen (h1.add_host_object (HostObject.vec
            [fnReturnSym, RawVal.symSmall func])) fun h2 topicsObj =>
          h2.record_system_debug_contract_event ContractEventType.diagnostic
            (some idObj) topicsObj res

/-! ### call_n_internal (frame.rs) -/

/-- frame.rs `ContractReentryMode`. -/
inductive ContractReentryMode
  | prohibited
  | selfAllowed
  | allowed
  deriving DecidableEq

/-- The contract identity a frame carries for the re-entrancy scan
(`HostFunction` frames carry none and are skipped). -/
def Frame.contractIdForReentry : Frame → Option Hash
  | .contractVM vm _ _ => some vm.contract_id
  | .token id _ _ => some id
  | .testContract tc => some tc.id
  | .hostFunction _ => none

def reentryViolationMsg : String := "Contract re-entry is not allowed"

def reentryViolationError : HostError :=
  { error := { type := ScErrorType.context, code := ScErrorCode.invalidAction }
    msg := reentryViolationMsg }

/-- frame.rs `call_n_internal` lines 368-394: the top-down stack scan with
the `is_last_non_host_frame` accumulator. `HostFunction` frames are skipped
without clearing the accumulator; under `SelfAllowed` the first non-host
match is tolerated once, after which the accumulator is cleared. -/
def reentry_scan (id : Hash) (mode : ContractReentryMode) :
    List Frame → Bool → Option HostError
  | [], _ => none
  | f :: rest, is_last_non_host_frame =>
    match f.contractIdForReentry with
    | none => reentry_scan id mode rest is_last_non_host_frame
    | some exist_id =>
      if id = exist_id then
        if mode = ContractReentryMode.selfAllowed ∧ is_last_non_host_frame = true then
          reentry_scan id mode rest false
        else some reentryViolationError
      else reentry_scan id mode rest false

/-- The re-entrancy policy applied by `call_n_internal`: skipped entirely
when the mode is `Allowed`. -/
def reentry_check (h : HostState) (id : Hash) (mode : ContractReentryMode) :
    Option HostError :=
  if mode = ContractReentryMode.allowed then none
  else reentry_scan id mode h.context true

/-- frame.rs `RESERVED_CONTRACT_FN_PREFIX`: functions starting with a double
underscore are reserved by the host. -/
def RESERVED_CONTRACT_FN_PREFIX : String := "__"

/-- Rust `str::starts_with`, as a computation on the character lists. -/
def strStartsWith (s pre : String) : Bool :=
  pre.data.isPrefixOf s.data

def reservedFunctionMsg : String := "can't invoke a reserved function directly"

def reservedFunctionError : HostError :=
  { error := { type := ScErrorType.context, code := ScErrorCode.invalidAction }
    msg := reservedFunctionMsg }

/-- The line-489 handling of the "fn_return" diagnostic result: success
keeps the dispatched value; the `?` propagates a diagnostic-construction
failure, replacing the successful result. -/
def fnReturnStep (p : HostState × Except HostError Unit) (v : RawVal) :
    HostState × Outcome RawVal :=
  match p with
  | (h3, Except.ok _) => (h3, Outcome.ok v)
  | (h3, Except.error e) => (h3, Outcome.err e)

/-- frame.rs `call_n_internal` after the reserved-name gate: re-entrancy
policy, "fn_call" diagnostic (its failure propagates), dispatch, and the
"fn_return" diagnostic on success only (its failure also propagates —
line 489 applies `?` to `fn_return_diagnostics`). `call_contract_fn`
abstracts the line-486 dispatch (storage resolution plus VM or built-in
native contract — external collaborators per spec section 6). -/
def HostState.call_n_checked (h : HostState) (id : Hash) (func : String)
    (args : List RawVal) (reentry_mode : ContractReentryMode)
    (call_contract_fn : HostState → HostState × Outcome RawVal) :
    HostState × Outcome RawVal :=
  match reentry_check h id reentry_mode with
  | some e => (h, Outcome.err e)
  | none =>
    andThenOutcome (h.fn_call_diagnostics id func args) fun h1 _ =>
      let pr := call_contract_fn h1
      match pr.2 with
      | Outcome.ok v => fnReturnStep (pr.1.fn_return_diagnostics id func v) v
      | r => (pr.1, r)

/-- frame.rs `call_n_internal` (production compilation; the function symbol
arrives already decoded as its name string — `SymbolStr::try_from_val` is
modelled as the identity). Internal host calls bypass the reserved-prefix
gate. -/
def HostState.call_n_internal (h : HostState) (id : Hash) (func : String)
    (args : List RawVal) (reentry_mode : ContractReentryMode)
    (internal_host_call : Bool)
    (call_contract_fn : HostState → HostState × Outcome RawVal) :
    HostState × Outcome RawVal :=
  if internal_host_call = false ∧ strStartsWith func RESERVED_CONTRACT_FN_PREFIX = true then
    (h, Outcome.err reservedFunctionError)
  else
    h.call_n_checked id func args reentry_mode call_contract_fn

/-! ### Invariant of guarded-scope bodies -/

/-- The invariant every `Invocation` body enjoys: it restores the context
stack it was given, it never aborts the process, and it only ever extends
the Event Log (events are appended in call order; a nested rollback discards
a suffix it appended itself). -/
def bodyInv (f : HostState → HostState × Outcome RawVal) : Prop :=
  ∀ h0 : HostState,
    (f h0).1.context = h0.context ∧
    (f h0).2 ≠ Outcome.fatal ∧
    ∃ t, (f h0).1.events = h0.events ++ t

/-! ### Concrete sample data (used by the witness theorems) -/

def sampleFuncName : String := "hello"

def sampleContractId : Hash := { id := 1 }

def sampleFrame : Frame := Frame.token sampleContractId sampleFuncName []

def sampleMsg : String := "missing entry"

def sampleHostError : HostError :=
  { error := { type := ScErrorType.storage, code := ScErrorCode.missingValue }
    msg := sampleMsg }

def sampleState : HostState :=
  { storage := [(1, 2)]
    events := []
    context := []
    objects := []
    authorization_manager := { frames := [] }
    authAvailable := true
    diagnostic_level := DiagnosticLevel.none
    budget := { limit := 100, used := 0 } }

/-- The state `with_frame` leaves after a rolled-back sample failure. -/
def sampleRollbackResult : HostState :=
  (sampleState.with_frame sampleFrame (runInvocation (Invocation.fail sampleHostError))).1

/-- A body that succeeds with `void` and leaves the state untouched. -/
def bodyOkVoid : HostState → HostState × Outcome RawVal :=
  fun s => (s, Outcome.ok RawVal.void)

/-- The state `with_frame` leaves after committing `bodyOkVoid`. -/
def sampleCommitResult : HostState :=
  (sampleState.with_frame sampleFrame bodyOkVoid).1

/-- A dispatch function that fails with `sampleHostError`. -/
def dispatchErr : HostState → HostState × Outcome RawVal :=
  fun s => (s, Outcome.err sampleHostError)

/-- A dispatch function that succeeds with `void`. -/
def dispatchOk : HostState → HostState × Outcome RawVal :=
  fun s => (s, Outcome.ok RawVal.void)

def reservedSampleFunc : String := "__gate"

def samplePushed : HostState := (sampleState.push_frame sampleFrame).1

def sampleRp : RollbackPoint := (sampleState.push_frame sampleFrame).2

def sampleSnap : AuthorizationManagerSnapshot :=
  (sampleState.authorization_manager.pushFrame sampleFrame).snapshot

def samplePopped : HostState :=
  (samplePushed.pop_frame (some sampleRp)).getD samplePushed

def sampleRpNoAuth : RollbackPoint := { sampleRp with auth := none }

def samplePoppedNoAuth : HostState :=
  (samplePushed.pop_frame (some sampleRpNoAuth)).getD samplePushed

def samplePoppedCommit : HostState :=
  (samplePushed.pop_frame none).getD samplePushed

/-! ### Counterexample state for the fn_return-diagnostic claim -/

def dummyObject : HostObject := HostObject.u64 { n := 0 }

/-- Three handles short of exhausting the `u32` handle space: the three
objects built by the "fn_call" diagnostic still fit, the first object built
by the "fn_return" diagnostic does not. -/
def cxObjectsCount : Nat := handleLimit - 3

def cxContractId : Hash := { id := 7 }

def cxFuncName : String := "f"

/-- `sampleState` with the guard-frame cost already charged. -/
def sampleCharged : HostState :=
  { sampleState with budget := { limit := 100, used := guardFrameCost } }

def samplePushedCharged : HostState :=
  (sampleCharged.push_frame sampleFrame).1

/-- Diagnostics on, empty frame stack, object store nearly full. -/
def hCx : HostState :=
  { storage := []
    events := []
    context := []
    objects := List.replicate cxObjectsCount dummyObject
    authorization_manager := { frames := [] }
    authAvailable := true
    diagnostic_level := DiagnosticLevel.debug
    budget := { limit := 0, used := 0 } }

/-- The bytes object the "fn_call" diagnostic stores for the called id. -/
def cxBytesObj : HostObject := HostObject.bytes { bytes := [cxContractId.id] }

/-- `hCx` after the "fn_call" diagnostic stored the called-id bytes. -/
def hCx1 : HostState := { hCx with objects := hCx.objects ++ [cxBytesObj] }

/-- The topics vector of the "fn_call" diagnostic. -/
def cxTopicsObj : HostObject :=
  HostObject.vec [RawVal.symSmall fnCallSymStr, RawVal.obj hCx.objects.length,
    RawVal.symSmall cxFuncName]

def hCx2 : HostState := { hCx1 with objects := hCx1.objects ++ [cxTopicsObj] }

/-- The (empty) args vector of the "fn_call" diagnostic. -/
def cxArgsObj : HostObject := HostObject.vec []

def hCx3 : HostState := { hCx2 with objects := hCx2.objects ++ [cxArgsObj] }

/-- The "fn_call" diagnostic event recorded before dispatch. -/
def cxCallEvent : InternalEvent :=
  InternalEvent.structuredDebug
    { type := ContractEventType.diagnostic
      contract_id := none
      topics := hCx1.objects.length
      data := RawVal.obj hCx2.objects.length }

/-- The state after the "fn_call" diagnostic: three objects stored, one event
recorded, the object store now completely full. -/
def hCx4 : HostState := { hCx3 with events := hCx3.events ++ [cxCallEvent] }

/-! ## Theorems -/

/-- Folding lemma: the `call` case of `runInvocation` is exactly
`with_frame` applied to the nested body. -/
theorem runInvocation_call (fr : Frame) (inner k : Invocation) (h : HostState) :
    runInvocation (Invocation.call fr inner k) h =
      match (h.with_frame fr (runInvocation inner)).2 with
      | Outcome.ok _ => runInvocation k (h.with_frame fr (runInvocation inner)).1
      | Outcome.err e => ((h.with_frame fr (runInvocation inner)).1, Outcome.err e)
      | Outcome.fatal => ((h.with_frame fr (runInvocation inner)).1, Outcome.fatal) := rfl

theorem push_frame_context (h : HostState) (fr : Frame) :
    (h.push_frame fr).1.context = fr :: h.context := rfl

theorem push_frame_storage (h : HostState) (fr : Frame) :
    (h.push_frame fr).1.storage = h.storage := rfl

theorem push_frame_events (h : HostState) (fr : Frame) :
    (h.push_frame fr).1.events = h.events := rfl

theorem push_frame_rp_storage (h : HostState) (fr : Frame) :
    (h.push_frame fr).2.storage = h.storage := rfl

theorem push_frame_rp_events (h : HostState) (fr : Frame) :
    (h.push_frame fr).2.events = h.events.length := rfl

theorem push_frame_rp_auth (h : HostState) (fr : Frame) :
    (h.push_frame fr).2.auth =
      if h.authAvailable then some ((h.authorization_manager.pushFrame fr).snapshot)
      else none := rfl

theorem push_frame_manager (h : HostState) (fr : Frame) :
    (h.push_frame fr).1.authorization_manager =
      if h.authAvailable then h.authorization_manager.pushFrame fr
      else h.authorization_manager := rfl

theorem pop_frame_none_eq (h : HostState) (c : Frame) (rest : List Frame)
    (hctx : h.context = c :: rest) :
    h.pop_frame none =
      some { h with context := rest, authorization_manager := afterPopManager h rest } := by
  unfold HostState.pop_frame
  rw [hctx]

theorem pop_frame_some_eq (h : HostState) (c : Frame) (rest : List Frame)
    (rp : RollbackPoint) (hctx : h.context = c :: rest) :
    h.pop_frame (some rp) =
      some { h with
              context := rest
              authorization_manager :=
                match rp.auth with
                | some auth_rp => (afterPopManager h rest).rollback auth_rp
                | none => afterPopManager h rest
              storage := rp.storage
              events := h.events.take rp.events } := by
  unfold HostState.pop_frame
  rw [hctx]

theorem escalateFrameExit_ne_fatal (res0 : Outcome RawVal)
    (hnf : res0 ≠ Outcome.fatal) : escalateFrameExit res0 ≠ Outcome.fatal := by
  cases res0 with
  | ok v =>
    unfold escalateFrameExit
    cases htf : Error.tryFrom v <;> simp [htf]
  | err e => simp [escalateFrameExit]
  | fatal => exact absurd rfl hnf

theorem with_frame_finish_resolve (start : Nat) (rp : RollbackPoint)
    (h3 : HostState) (res0 : Outcome RawVal) (hnf : res0 ≠ Outcome.fatal) :
    with_frame_finish start rp (h3, res0) =
      (match h3.pop_frame (if (escalateFrameExit res0).isErr then some rp else none) with
       | none => (h3, Outcome.fatal)
       | some h4 =>
         if h4.context.length = start then (h4, escalateFrameExit res0)
         else (h4, Outcome.fatal)) := by
  cases res0 with
  | ok v => rfl
  | err e => rfl
  | fatal => exact absurd rfl hnf

theorem with_frame_charge_none (h : HostState) (fr : Frame)
    (f : HostState → HostState × Outcome RawVal)
    (hch : h.budget.charge guardFrameCost = none) :
    h.with_frame fr f = (h, Outcome.err budgetExceededError) := by
  unfold HostState.with_frame
  rw [hch]

theorem with_frame_charge_some (h : HostState) (fr : Frame)
    (f : HostState → HostState × Outcome RawVal) (b : Budget)
    (hch : h.budget.charge guardFrameCost = some b) :
    h.with_frame fr f =
      with_frame_finish h.context.length
        (HostState.push_frame { h with budget := b } fr).2
        (f (HostState.push_frame { h with budget := b } fr).1) := by
  unfold HostState.with_frame
  rw [hch]

/-- Master lemma about one guarded scope wrapped around a body enjoying
`bodyInv`: the scope restores the context stack, never aborts, only extends
the Event Log, and on the failure path restores storage and events exactly. -/
theorem with_frame_main (h : HostState) (fr : Frame)
    (f : HostState → HostState × Outcome RawVal) (hf : bodyInv f) :
    (h.with_frame fr f).1.context = h.context ∧
    (h.with_frame fr f).2 ≠ Outcome.fatal ∧
    (∃ t, (h.with_frame fr f).1.events = h.events ++ t) ∧
    (∀ h' e, h.with_frame fr f = (h', Outcome.err e) →
      h'.storage = h.storage ∧ h'.events = h.events) := by
  cases hch : h.budget.charge guardFrameCost with
  | none =>
    have hwf := with_frame_charge_none h fr f hch
    rw [hwf]
    refine ⟨rfl, by simp, ⟨[], by simp⟩, ?_⟩
    intro h' e heq
    cases heq
    exact ⟨rfl, rfl⟩
  | some b =>
    have hwf0 := with_frame_charge_some h fr f b hch
    obtain ⟨hc3, hnf3, t, hev3⟩ := hf (HostState.push_frame { h with budget := b } fr).1
    cases hfr : f (HostState.push_frame { h with budget := b } fr).1 with
    | mk h3 res0 =>
      have hfst : (f (HostState.push_frame { h with budget := b } fr).1).1 = h3 := by rw [hfr]
      have hsnd : (f (HostState.push_frame { h with budget := b } fr).1).2 = res0 := by rw [hfr]
      have hc3' : h3.context = fr :: h.context := by
        rw [← hfst, hc3]; rfl
      have hnf3' : res0 ≠ Outcome.fatal := by rw [← hsnd]; exact hnf3
      have hev3' : h3.events = h.events ++ t := by
        rw [← hfst, hev3]; rfl
      rw [hfr, with_frame_finish_resolve _ _ _ _ hnf3'] at hwf0
      cases hesc : escalateFrameExit res0 with
      | fatal => exact absurd hesc (escalateFrameExit_ne_fatal _ hnf3')
      | ok v =>
        rw [hesc] at hwf0
        simp only [Outcome.isErr, Bool.false_eq_true, if_false] at hwf0
        rw [pop_frame_none_eq h3 fr h.context hc3'] at hwf0
        simp only [hc3'] at hwf0
        simp only [if_true] at hwf0
        refine ⟨by rw [hwf0], by rw [hwf0]; simp, ⟨t, by rw [hwf0]; exact hev3'⟩, ?_⟩
        intro h' e heq
        rw [hwf0] at heq
        simp at heq
      | err e0 =>
        rw [hesc] at hwf0
        simp only [Outcome.isErr, if_true] at hwf0
        rw [pop_frame_some_eq h3 fr h.context
            (HostState.push_frame { h with budget := b } fr).2 hc3'] at hwf0
        simp only [hc3'] at hwf0
        simp only [if_true] at hwf0
        have hevRestore :
            h3.events.take (HostState.push_frame { h with budget := b } fr).2.events
              = h.events := by
          rw [push_frame_rp_events, hev3']
          exact List.take_left h.events t
        refine ⟨by rw [hwf0], by rw [hwf0]; simp, ⟨[], by rw [hwf0]; simp [hevRestore]⟩, ?_⟩
        intro h' e heq
        rw [hwf0] at heq
        have h'eq : h' =
            { h3 with
                context := h.context
                authorization_manager :=
                  match (HostState.push_frame { h with budget := b } fr).2.auth with
                  | some auth_rp =>
                    (afterPopManager h3 h.context).rollback auth_rp
                  | none => afterPopManager h3 h.context
                storage := (HostState.push_frame { h with budget := b } fr).2.storage
                events :=
                  h3.events.take (HostState.push_frame { h with budget := b } fr).2.events } := by
          cases heq
          rfl
        rw [h'eq]
        exact ⟨push_frame_rp_storage h fr, hevRestore⟩

/-- Every `Invocation` body enjoys `bodyInv`: it restores the context stack,
never aborts the process, and only extends the Event Log. -/
theorem runInvocation_inv (i : Invocation) : bodyInv (runInvocation i) := by
  induction i with
  | ret v =>
    intro h
    exact ⟨rfl, by simp [runInvocation], ⟨[], by simp [runInvocation]⟩⟩
  | fail e =>
    intro h
    exact ⟨rfl, by simp [runInvocation], ⟨[], by simp [runInvocation]⟩⟩
  | put key val i ih =>
    intro h
    obtain ⟨hc, hn, t, he⟩ := ih { h with storage := (key, val) :: h.storage }
    exact ⟨hc, hn, ⟨t, he⟩⟩
  | emit ev i ih =>
    intro h
    obtain ⟨hc, hn, t, he⟩ := ih { h with events := h.events ++ [ev] }
    exact ⟨hc, hn, ⟨[ev] ++ t, he.trans (List.append_assoc h.events [ev] t)⟩⟩
  | call fr inner k ih_inner ih_k =>
    intro h
    have hcall := runInvocation_call fr inner k h
    obtain ⟨hwc, hwn, ⟨tw, hwe⟩, -⟩ := with_frame_main h fr (runInvocation inner) ih_inner
    cases hres : (h.with_frame fr (runInvocation inner)).2 with
    | ok v =>
      simp only [hres] at hcall
      obtain ⟨hc, hn, t2, he⟩ := ih_k (h.with_frame fr (runInvocation inner)).1
      rw [hcall]
      refine ⟨hc.trans hwc, hn, ⟨tw ++ t2, ?_⟩⟩
      rw [he, hwe, List.append_assoc]
    | err e =>
      simp only [hres] at hcall
      rw [hcall]
      exact ⟨hwc, by simp, ⟨tw, hwe⟩⟩
    | fatal => exact absurd hres hwn

theorem with_frame_finish_nonfatal_depth (start : Nat) (rp : RollbackPoint)
    (h3 : HostState) (res0 : Outcome RawVal) (hnf0 : res0 ≠ Outcome.fatal)
    (hnf : (with_frame_finish start rp (h3, res0)).2 ≠ Outcome.fatal) :
    (with_frame_finish start rp (h3, res0)).1.context.length = start := by
  rw [with_frame_finish_resolve _ _ _ _ hnf0] at hnf ⊢
  cases hpop : h3.pop_frame (if (escalateFrameExit res0).isErr then some rp else none) with
  | none =>
    simp only [hpop] at hnf
    exact absurd rfl hnf
  | some h4 =>
    simp only [hpop] at hnf ⊢
    by_cases hlen : h4.context.length = start
    · rw [if_pos hlen]
      exact hlen
    · rw [if_neg hlen] at hnf
      exact absurd rfl hnf

/-- For an arbitrary body closure: whenever `with_frame` returns without a
fatal abort, the context depth is exactly restored (the
`assert_eq!(start_depth, end_depth)` turns any mismatch into an abort). -/
theorem with_frame_nonfatal_depth (h : HostState) (fr : Frame)
    (f : HostState → HostState × Outcome RawVal)
    (hnf : (h.with_frame fr f).2 ≠ Outcome.fatal) :
    (h.with_frame fr f).1.context.length = h.context.length := by
  cases hch : h.budget.charge guardFrameCost with
  | none => rw [with_frame_charge_none h fr f hch]
  | some b =>
    have hwf0 := with_frame_charge_some h fr f b hch
    cases hfr : f (HostState.push_frame { h with budget := b } fr).1 with
    | mk h3 res0 =>
      rw [hfr] at hwf0
      cases res0 with
      | fatal =>
        rw [hwf0] at hnf
        exact absurd rfl hnf
      | ok v =>
        rw [hwf0] at hnf ⊢
        exact with_frame_finish_nonfatal_depth _ _ _ _ (by simp) hnf
      | err e =>
        rw [hwf0] at hnf ⊢
        exact with_frame_finish_nonfatal_depth _ _ _ _ (by simp) hnf

/-- C1. For every invocation run under a guarded scope (`with_frame`), if the
invocation fails, then after the pop-with-rollback the Storage Map deeply
equals the Storage Map captured at push time and the Event Log length equals
the length recorded at push time (both captures coincide with the values
before the call: charging the guard-frame cost touches only the budget). -/
theorem with_frame_atomicity (i : Invocation) (fr : Frame) (h h' : HostState)
    (e : HostError)
    (heq : h.with_frame fr (runInvocation i) = (h', Outcome.err e)) :
    h'.storage = h.storage ∧ h'.events.length = h.events.length := by
  obtain ⟨-, -, -, hrestore⟩ := with_frame_main h fr (runInvocation i) (runInvocation_inv i)
  obtain ⟨hs, hev⟩ := hrestore h' e heq
  exact ⟨hs, by rw [hev]⟩

/-- Witness for C1 at a concrete failing invocation. -/
theorem with_frame_atomicity_witness :
    sampleRollbackResult.storage = sampleState.storage ∧
    sampleRollbackResult.events.length = sampleState.events.length :=
  with_frame_atomicity (Invocation.fail sampleHostError) sampleFrame sampleState
    sampleRollbackResult sampleHostError (by decide)

/-- C2. For every frame and every body closure, the frame-stack depth after
`with_frame` returns equals the depth before the call whenever the return is
not a fatal abort — a depth mismatch is a fatal internal invariant failure
(`Outcome.fatal`, the `assert_eq!` process abort), never a reported error —
and for every body built of nested guarded scopes (`Invocation`), the call
in fact returns non-fatally with the depth exactly restored, regardless of
the success/failure mix inside. -/
theorem with_frame_stack_balance (h : HostState) (fr : Frame) :
    (∀ f : HostState → HostState × Outcome RawVal,
      (h.with_frame fr f).2 ≠ Outcome.fatal →
      (h.with_frame fr f).1.context.length = h.context.length) ∧
    (∀ i : Invocation,
      (h.with_frame fr (runInvocation i)).2 ≠ Outcome.fatal ∧
      (h.with_frame fr (runInvocation i)).1.context.length = h.context.length) := by
  refine ⟨fun f hnf => with_frame_nonfatal_depth h fr f hnf, fun i => ?_⟩
  obtain ⟨hc, hn, -, -⟩ := with_frame_main h fr (runInvocation i) (runInvocation_inv i)
  exact ⟨hn, by rw [hc]⟩

/-- Witness for C2 at a concrete state, frame and body. -/
theorem with_frame_stack_balance_witness :
    (sampleState.with_frame sampleFrame bodyOkVoid).2 ≠ Outcome.fatal ∧
    (sampleState.with_frame sampleFrame bodyOkVoid).1.context.length =
      sampleState.context.length :=
  ⟨by decide,
   (with_frame_stack_balance sampleState sampleFrame).1 bodyOkVoid (by decide)⟩

theorem escalate_ok_of_none (v : RawVal) (htf : Error.tryFrom v = none) :
    escalateFrameExit (Outcome.ok v) = Outcome.ok v := by
  simp [escalateFrameExit, htf]

theorem escalate_ok_of_some (v : RawVal) (e : Error) (htf : Error.tryFrom v = some e) :
    escalateFrameExit (Outcome.ok v) =
      Outcome.err { error := e, msg := escalateOkErrorMsg } := by
  simp [escalateFrameExit, htf]

theorem escalate_err (e : HostError) :
    escalateFrameExit (Outcome.err e) = Outcome.err e := rfl

theorem escalateFrameExit_idem (r : Outcome RawVal) :
    escalateFrameExit (escalateFrameExit r) = escalateFrameExit r := by
  cases r with
  | ok v =>
    cases htf : Error.tryFrom v with
    | none => rw [escalate_ok_of_none v htf, escalate_ok_of_none v htf]
    | some e => rw [escalate_ok_of_some v e htf, escalate_err]
  | err e => rfl
  | fatal => rfl

theorem with_frame_finish_escalate (start : Nat) (rp : RollbackPoint)
    (h3 : HostState) (res0 : Outcome RawVal) :
    with_frame_finish start rp (h3, escalateFrameExit res0) =
      with_frame_finish start rp (h3, res0) := by
  cases res0 with
  | fatal => rfl
  | err e => rfl
  | ok v =>
    rw [with_frame_finish_resolve start rp h3 (escalateFrameExit (Outcome.ok v))
          (escalateFrameExit_ne_fatal _ (by simp)),
        with_frame_finish_resolve start rp h3 (Outcome.ok v) (by simp),
        escalateFrameExit_idem]

/-- C4. For every guarded scope: (a) running a body is identical — same final
state, same reported result — to running the body with its `Ok` exits
escalated through `escalateFrameExit` first, so a success carrying an
error-decoding value behaves exactly as if the body had returned that failure
directly (and, by C1's rollback lemma, that failure path pops with
rollback); (b) a value returned successfully by the scope never decodes as
an error; (c) when the body returns success with a non-error value, the
scope pops with commit (`pop_frame none`) and reports that value. -/
theorem with_frame_escalation (h : HostState) (fr : Frame)
    (f : HostState → HostState × Outcome RawVal) :
    (h.with_frame fr f =
      h.with_frame fr (fun h0 => ((f h0).1, escalateFrameExit (f h0).2))) ∧
    (∀ h' v, h.with_frame fr f = (h', Outcome.ok v) → Error.tryFrom v = none) ∧
    (∀ b h3 v, h.budget.charge guardFrameCost = some b →
      f (HostState.push_frame { h with budget := b } fr).1 = (h3, Outcome.ok v) →
      Error.tryFrom v = none →
      h3.context = fr :: h.context →
      ∃ h4, h3.pop_frame none = some h4 ∧
        h.with_frame fr f = (h4, Outcome.ok v) ∧ h4.storage = h3.storage) := by
  refine ⟨?_, ?_, ?_⟩
  · cases hch : h.budget.charge guardFrameCost with
    | none =>
      rw [with_frame_charge_none h fr f hch, with_frame_charge_none h fr _ hch]
    | some b =>
      rw [with_frame_charge_some h fr f b hch, with_frame_charge_some h fr _ b hch]
      cases hfr : f (HostState.push_frame { h with budget := b } fr).1 with
      | mk h3 res0 =>
        exact (with_frame_finish_escalate _ _ h3 res0).symm
  · intro h' v heq
    cases hch : h.budget.charge guardFrameCost with
    | none =>
      rw [with_frame_charge_none h fr f hch] at heq
      simp [Prod.ext_iff] at heq
    | some b =>
      rw [with_frame_charge_some h fr f b hch] at heq
      cases hfr : f (HostState.push_frame { h with budget := b } fr).1 with
      | mk h3 res0 =>
        rw [hfr] at heq
        cases res0 with
        | fatal =>
          have hred : with_frame_finish h.context.length
              (HostState.push_frame { h with budget := b } fr).2 (h3, Outcome.fatal) =
              (h3, Outcome.fatal) := rfl
          rw [hred] at heq
          simp [Prod.ext_iff] at heq
        | ok w =>
          rw [with_frame_finish_resolve _ _ _ _ (by simp)] at heq
          cases htf : Error.tryFrom w with
          | none =>
            rw [escalate_ok_of_none w htf] at heq
            cases hpop : h3.pop_frame
                (if (Outcome.ok w).isErr then
                  some (HostState.push_frame { h with budget := b } fr).2
                 else none) with
            | none =>
              simp only [hpop] at heq
              simp [Prod.ext_iff] at heq
            | some h4 =>
              simp only [hpop] at heq
              by_cases hlen : h4.context.length = h.context.length
              · rw [if_pos hlen] at heq
                have hv' : Outcome.ok w = Outcome.ok v := congrArg Prod.snd heq
                cases hv'
                exact htf
              · rw [if_neg hlen] at heq
                simp [Prod.ext_iff] at heq
          | some e =>
            rw [escalate_ok_of_some w e htf] at heq
            cases hpop : h3.pop_frame
                (if (Outcome.err { error := e, msg := escalateOkErrorMsg } :
                      Outcome RawVal).isErr then
                  some (HostState.push_frame { h with budget := b } fr).2
                 else none) with
            | none =>
              simp only [hpop] at heq
              simp [Prod.ext_iff] at heq
            | some h4 =>
              simp only [hpop] at heq
              by_cases hlen : h4.context.length = h.context.length
              · rw [if_pos hlen] at heq
                simp [Prod.ext_iff] at heq
              · rw [if_neg hlen] at heq
                simp [Prod.ext_iff] at heq
        | err e =>
          rw [with_frame_finish_resolve _ _ _ _ (by simp)] at heq
          cases hpop : h3.pop_frame
              (if (escalateFrameExit (Outcome.err e)).isErr then
                some (HostState.push_frame { h with budget := b } fr).2
               else none) with
          | none =>
            simp only [hpop] at heq
            simp [Prod.ext_iff] at heq
          | some h4 =>
            simp only [hpop] at heq
            by_cases hlen : h4.context.length = h.context.length
            · rw [if_pos hlen, escalate_err] at heq
              simp [Prod.ext_iff] at heq
            · rw [if_neg hlen] at heq
              simp [Prod.ext_iff] at heq
  · intro b h3 v hch hfr htf hc3
    rw [with_frame_charge_some h fr f b hch, hfr,
        with_frame_finish_resolve _ _ _ _ (by simp), escalate_ok_of_none v htf]
    cases hpop0 : (Outcome.ok v : Outcome RawVal).isErr with
    | true => simp [Outcome.isErr] at hpop0
    | false =>
      rw [pop_frame_none_eq h3 fr h.context hc3]
      refine ⟨_, rfl, ?_, rfl⟩
      simp only [Outcome.isErr, Bool.false_eq_true, if_false,
        pop_frame_none_eq h3 fr h.context hc3]
      rw [if_true]

/-- Witness for C4: a committed non-error success, with the escalation and
commit conjuncts instantiated at concrete inputs. -/
theorem with_frame_escalation_witness :
    Error.tryFrom RawVal.void = none ∧
    (∃ h4, samplePushedCharged.pop_frame none = some h4 ∧
      sampleState.with_frame sampleFrame bodyOkVoid = (h4, Outcome.ok RawVal.void) ∧
      h4.storage = samplePushedCharged.storage) :=
  ⟨(with_frame_escalation sampleState sampleFrame bodyOkVoid).2.1 sampleCommitResult
      RawVal.void (by decide),
   (with_frame_escalation sampleState sampleFrame bodyOkVoid).2.2
      { limit := 100, used := guardFrameCost } samplePushedCharged RawVal.void
      (by decide) (by decide) (by decide) (by decide)⟩

/-! ### Re-entrancy policy (C3) -/

theorem reentry_scan_none_or (id : Hash) (mode : ContractReentryMode)
    (l : List Frame) (b : Bool) :
    reentry_scan id mode l b = none ∨
    reentry_scan id mode l b = some reentryViolationError := by
  induction l generalizing b with
  | nil => exact Or.inl rfl
  | cons f rest ih =>
    cases hf : f.contractIdForReentry with
    | none =>
      simp only [reentry_scan, hf]
      exact ih b
    | some eid =>
      simp only [reentry_scan, hf]
      by_cases hid : id = eid
      · rw [if_pos hid]
        by_cases hsa : mode = ContractReentryMode.selfAllowed ∧ b = true
        · rw [if_pos hsa]
          exact ih false
        · rw [if_neg hsa]
          exact Or.inr rfl
      · rw [if_neg hid]
        exact ih false

theorem reentry_scan_prohibited_none_iff (id : Hash) (l : List Frame) (b : Bool) :
    reentry_scan id ContractReentryMode.prohibited l b = none ↔
      id ∉ l.filterMap Frame.contractIdForReentry := by
  induction l generalizing b with
  | nil => simp [reentry_scan]
  | cons f rest ih =>
    cases hf : f.contractIdForReentry with
    | none => simp [reentry_scan, hf, List.filterMap_cons, ih b]
    | some eid =>
      by_cases hid : id = eid
      · simp [reentry_scan, hf, hid, List.filterMap_cons]
      · simp [reentry_scan, hf, hid, List.filterMap_cons, ih false]

theorem reentry_scan_selfAllowed_false_none_iff (id : Hash) (l : List Frame) :
    reentry_scan id ContractReentryMode.selfAllowed l false = none ↔
      id ∉ l.filterMap Frame.contractIdForReentry := by
  induction l with
  | nil => simp [reentry_scan]
  | cons f rest ih =>
    cases hf : f.contractIdForReentry with
    | none => simp [reentry_scan, hf, List.filterMap_cons, ih]
    | some eid =>
      by_cases hid : id = eid
      · simp [reentry_scan, hf, hid, List.filterMap_cons]
      · simp [reentry_scan, hf, hid, List.filterMap_cons, ih]

theorem reentry_scan_selfAllowed_true_none_iff (id : Hash) (l : List Frame) :
    reentry_scan id ContractReentryMode.selfAllowed l true = none ↔
      id ∉ (l.filterMap Frame.contractIdForReentry).drop 1 := by
  induction l with
  | nil => simp [reentry_scan]
  | cons f rest ih =>
    cases hf : f.contractIdForReentry with
    | none => simp [reentry_scan, hf, List.filterMap_cons, ih]
    | some eid =>
      by_cases hid : id = eid
      · simp [reentry_scan, hf, hid, List.filterMap_cons,
          reentry_scan_selfAllowed_false_none_iff]
      · simp [reentry_scan, hf, hid, List.filterMap_cons,
          reentry_scan_selfAllowed_false_none_iff]

/-- C3. The re-entrancy check of `call_n_internal` fails — always with the
`Context`/`InvalidAction` re-entry violation — exactly when: the mode is
`Prohibited` and the target id appears in any non-host frame of the stack;
or the mode is `SelfAllowed` and the target id appears in a non-host frame
other than the most recent one (the head of the top-down list of non-host
frame ids); and it never fails when the mode is `Allowed`. -/
theorem call_reentry_policy (h : HostState) (id : Hash) (mode : ContractReentryMode) :
    (reentry_check h id mode = none ∨
      reentry_check h id mode = some reentryViolationError) ∧
    (reentry_check h id mode = some reentryViolationError ↔
      (mode = ContractReentryMode.prohibited ∧
        id ∈ h.context.filterMap Frame.contractIdForReentry) ∨
      (mode = ContractReentryMode.selfAllowed ∧
        id ∈ (h.context.filterMap Frame.contractIdForReentry).drop 1)) ∧
    reentry_check h id ContractReentryMode.allowed = none ∧
    reentryViolationError.error.type = ScErrorType.context ∧
    reentryViolationError.error.code = ScErrorCode.invalidAction := by
  refine ⟨?_, ?_, by simp [reentry_check], rfl, rfl⟩
  · cases mode with
    | allowed => exact Or.inl (by simp [reentry_check])
    | prohibited =>
      simpa [reentry_check] using
        reentry_scan_none_or id ContractReentryMode.prohibited h.context true
    | selfAllowed =>
      simpa [reentry_check] using
        reentry_scan_none_or id ContractReentryMode.selfAllowed h.context true
  · cases mode with
    | allowed => simp [reentry_check]
    | prohibited =>
      have hor := reentry_scan_none_or id ContractReentryMode.prohibited h.context true
      have hiff := reentry_scan_prohibited_none_iff id h.context true
      have hrc : reentry_check h id ContractReentryMode.prohibited =
          reentry_scan id ContractReentryMode.prohibited h.context true := by
        simp [reentry_check]
      rw [hrc]
      constructor
      · intro hs
        left
        refine ⟨rfl, ?_⟩
        by_contra hmem
        rw [← hiff] at hmem
        rw [hmem] at hs
        exact Option.noConfusion hs
      · rintro (⟨-, hmem⟩ | ⟨hco, -⟩)
        · rcases hor with hn | hsome
          · rw [hiff] at hn
            exact absurd hmem hn
          · exact hsome
        · exact absurd hco (by simp)
    | selfAllowed =>
      have hor := reentry_scan_none_or id ContractReentryMode.selfAllowed h.context true
      have hiff := reentry_scan_selfAllowed_true_none_iff id h.context
      have hrc : reentry_check h id ContractReentryMode.selfAllowed =
          reentry_scan id ContractReentryMode.selfAllowed h.context true := by
        simp [reentry_check]
      rw [hrc]
      constructor
      · intro hs
        right
        refine ⟨rfl, ?_⟩
        by_contra hmem
        rw [← hiff] at hmem
        rw [hmem] at hs
        exact Option.noConfusion hs
      · rintro (⟨hco, -⟩ | ⟨-, hmem⟩)
        · exact absurd hco (by simp)
        · rcases hor with hn | hsome
          · rw [hiff] at hn
            exact absurd hmem hn
          · exact hsome

/-! ### Current-contract id on an empty stack (C6) -/

/-- C6 counterexample: with an empty frame stack, reading the current
contract id fails with the `Context`/`MissingValue` error of
`with_current_frame` — its code is `MissingValue`, not `InvalidAction` as
the claim places it. -/
theorem empty_stack_contract_id_cx :
    sampleState.context = [] ∧
    sampleState.get_current_contract_id_internal =
      Except.error noContractRunningError ∧
    noContractRunningError.error.code = ScErrorCode.missingValue ∧
    noContractRunningError.error.code ≠ ScErrorCode.invalidAction :=
  ⟨rfl, rfl, rfl, by decide⟩

/-- C6 (amended). For every state with an empty frame stack, reading the
current contract id fails with an error (never a default value), and that
error is in the `Context` error type with the `MissingValue` code. -/
theorem empty_stack_contract_id (h : HostState) (hc : h.context = []) :
    h.get_current_contract_id_internal = Except.error noContractRunningError ∧
    noContractRunningError.error.type = ScErrorType.context ∧
    noContractRunningError.error.code = ScErrorCode.missingValue := by
  refine ⟨?_, rfl, rfl⟩
  simp [HostState.get_current_contract_id_internal,
    HostState.get_current_contract_id_opt_internal,
    HostState.with_current_frame, hc]

/-- Witness for C6 (amended) at a concrete empty-stack state. -/
theorem empty_stack_contract_id_witness :
    sampleState.get_current_contract_id_internal =
      Except.error noContractRunningError ∧
    noContractRunningError.error.type = ScErrorType.context ∧
    noContractRunningError.error.code = ScErrorCode.missingValue :=
  empty_stack_contract_id sampleState (by decide)

/-! ### Reserved-function gate (C7) -/

/-- C7. A `call_n_internal` dispatch whose function name begins with the
reserved double-underscore prefix is rejected, when the call is not
internally originated, with the distinct `Context`/`InvalidAction`
reserved-function error before any frame is pushed (the state, in
particular the context stack, is returned untouched); an internally
originated call bypasses this gate entirely (it proceeds to
`call_n_checked` exactly as if the gate were absent). -/
theorem call_reserved_fn (h : HostState) (id : Hash) (func : String)
    (args : List RawVal) (mode : ContractReentryMode)
    (dispatch : HostState → HostState × Outcome RawVal) :
    (strStartsWith func RESERVED_CONTRACT_FN_PREFIX = true →
      h.call_n_internal id func args mode false dispatch =
        (h, Outcome.err reservedFunctionError)) ∧
    (h.call_n_internal id func args mode true dispatch =
      h.call_n_checked id func args mode dispatch) ∧
    reservedFunctionError.error.type = ScErrorType.context ∧
    reservedFunctionError.error.code = ScErrorCode.invalidAction ∧
    reservedFunctionError ≠ reentryViolationError := by
  refine ⟨?_, ?_, rfl, rfl, by decide⟩
  · intro hpre
    unfold HostState.call_n_internal
    rw [if_pos ⟨rfl, hpre⟩]
  · unfold HostState.call_n_internal
    rw [if_neg]
    rintro ⟨hfalse, -⟩
    exact Bool.noConfusion hfalse

/-- Witness for C7 at a concrete reserved name. -/
theorem call_reserved_fn_witness :
    sampleState.call_n_internal sampleContractId reservedSampleFunc []
        ContractReentryMode.allowed false dispatchOk =
      (sampleState, Outcome.err reservedFunctionError) :=
  (call_reserved_fn sampleState sampleContractId reservedSampleFunc []
      ContractReentryMode.allowed dispatchOk).1 (by decide)

/-! ### Authorization snapshot at push / restore at pop (C8) -/

/-- C8. `push_frame` returns a rollback point whose authorization snapshot
is present if and only if the authorization manager was available (not in
use) at push time — and in that case the manager has been notified of the
new frame, the snapshot being taken of the notified manager — and on the
rollback path `pop_frame` restores the manager from the snapshot exactly
when one was captured; with no snapshot, the manager ends up exactly as on a
pop without rollback. -/
theorem push_frame_auth (h : HostState) (fr : Frame) :
    ((h.push_frame fr).2.auth.isSome = h.authAvailable) ∧
    (h.authAvailable = true →
      (h.push_frame fr).1.authorization_manager =
        h.authorization_manager.pushFrame fr ∧
      (h.push_frame fr).2.auth =
        some ((h.authorization_manager.pushFrame fr).snapshot)) ∧
    (∀ c rest rp a, h.context = c :: rest → rp.auth = some a →
      ∃ h4, h.pop_frame (some rp) = some h4 ∧ h4.authorization_manager = a) ∧
    (∀ c rest rp, h.context = c :: rest → rp.auth = none →
      ∃ h4 h5, h.pop_frame (some rp) = some h4 ∧ h.pop_frame none = some h5 ∧
        h4.authorization_manager = h5.authorization_manager) := by
  refine ⟨?_, ?_, ?_, ?_⟩
  · rw [push_frame_rp_auth]
    cases hb : h.authAvailable <;> simp
  · intro hav
    refine ⟨?_, ?_⟩
    · rw [push_frame_manager, if_pos hav]
    · rw [push_frame_rp_auth, if_pos hav]
  · intro c rest rp a hctx ha
    rw [pop_frame_some_eq h c rest rp hctx]
    refine ⟨_, rfl, ?_⟩
    simp [ha, AuthorizationManager.rollback]
  · intro c rest rp hctx ha
    rw [pop_frame_some_eq h c rest rp hctx, pop_frame_none_eq h c rest hctx]
    refine ⟨_, _, rfl, rfl, ?_⟩
    simp [ha]

/-- Witness for C8 at concrete push and pop inputs. -/
theorem push_frame_auth_witness :
    ((sampleState.push_frame sampleFrame).1.authorization_manager =
        sampleState.authorization_manager.pushFrame sampleFrame ∧
      (sampleState.push_frame sampleFrame).2.auth =
        some ((sampleState.authorization_manager.pushFrame sampleFrame).snapshot)) ∧
    (∃ h4, samplePushed.pop_frame (some sampleRp) = some h4 ∧
      h4.authorization_manager = sampleSnap) ∧
    (∃ h4 h5, samplePushed.pop_frame (some sampleRpNoAuth) = some h4 ∧
      samplePushed.pop_frame none = some h5 ∧
      h4.authorization_manager = h5.authorization_manager) :=
  ⟨(push_frame_auth sampleState sampleFrame).2.1 (by decide),
   (push_frame_auth samplePushed sampleFrame).2.2.1 sampleFrame [] sampleRp
     sampleSnap (by decide) (by decide),
   (push_frame_auth samplePushed sampleFrame).2.2.2 sampleFrame [] sampleRpNoAuth
     (by decide) (by decide)⟩

/-! ### Diagnostic gating (C9) -/

/-- C9. With the diagnostic mode off (`is_debug` false), each of the three
diagnostic emitters is a no-op: it returns success with the state completely
unchanged — in particular the Event Log length is unchanged and the metering
budget is untouched. -/
theorem diagnostics_off_noop (h : HostState) (e : Error) (m : String)
    (args : List RawVal) (id : Hash) (func : String) (res : RawVal)
    (hoff : h.is_debug = false) :
    h.err_diagnostics e m args = (h, Except.ok ()) ∧
    h.fn_call_diagnostics id func args = (h, Except.ok ()) ∧
    h.fn_return_diagnostics id func res = (h, Except.ok ()) ∧
    (h.err_diagnostics e m args).1.events.length = h.events.length ∧
    (h.fn_call_diagnostics id func args).1.events.length = h.events.length ∧
    (h.fn_return_diagnostics id func res).1.events.length = h.events.length ∧
    (h.err_diagnostics e m args).1.budget = h.budget ∧
    (h.fn_call_diagnostics id func args).1.budget = h.budget ∧
    (h.fn_return_diagnostics id func res).1.budget = h.budget := by
  have h1 : h.err_diagnostics e m args = (h, Except.ok ()) := by
    unfold HostState.err_diagnostics
    rw [if_pos hoff]
  have h2 : h.fn_call_diagnostics id func args = (h, Except.ok ()) := by
    unfold HostState.fn_call_diagnostics
    rw [if_pos hoff]
  have h3 : h.fn_return_diagnostics id func res = (h, Except.ok ()) := by
    unfold HostState.fn_return_diagnostics
    rw [if_pos hoff]
  exact ⟨h1, h2, h3, by rw [h1], by rw [h2], by rw [h3], by rw [h1], by rw [h2],
    by rw [h3]⟩

/-- Witness for C9 at a concrete diagnostics-off state. -/
theorem diagnostics_off_noop_witness :
    sampleState.err_diagnostics sampleHostError.error sampleMsg [] =
      (sampleState, Except.ok ()) ∧
    sampleState.fn_call_diagnostics sampleContractId sampleFuncName [] =
      (sampleState, Except.ok ()) ∧
    sampleState.fn_return_diagnostics sampleContractId sampleFuncName RawVal.void =
      (sampleState, Except.ok ()) ∧
    (sampleState.err_diagnostics sampleHostError.error sampleMsg []).1.events.length =
      sampleState.events.length ∧
    (sampleState.fn_call_diagnostics sampleContractId sampleFuncName []).1.events.length =
      sampleState.events.length ∧
    (sampleState.fn_return_diagnostics sampleContractId sampleFuncName
        RawVal.void).1.events.length = sampleState.events.length ∧
    (sampleState.err_diagnostics sampleHostError.error sampleMsg []).1.budget =
      sampleState.budget ∧
    (sampleState.fn_call_diagnostics sampleContractId sampleFuncName []).1.budget =
      sampleState.budget ∧
    (sampleState.fn_return_diagnostics sampleContractId sampleFuncName
        RawVal.void).1.budget = sampleState.budget :=
  diagnostics_off_noop sampleState sampleHostError.error sampleMsg []
    sampleContractId sampleFuncName RawVal.void (by decide)

/-! ### Host object kind roundtrip (C10) -/

/-- C10. For every host-object kind declared through
`declare_host_object_type!`: injecting a value and extracting at the same
kind returns exactly that value, and conversely an extraction that succeeds
at a kind can only come from that kind's injection — so a store entry is
only ever extracted at the kind it was created with (extraction at any other
kind returns `none`, since the injections of distinct kinds use distinct
`HostObject` constructors). -/
theorem host_object_inject_extract :
    (∀ x : HostVec, hostObjectTypeHostVec.tryExtract (hostObjectTypeHostVec.inject x) = some x) ∧
    (∀ (o : HostObject) (x : HostVec),
      hostObjectTypeHostVec.tryExtract o = some x → o = hostObjectTypeHostVec.inject x) ∧
    (∀ x : HostMap, hostObjectTypeHostMap.tryExtract (hostObjectTypeHostMap.inject x) = some x) ∧
    (∀ (o : HostObject) (x : HostMap),
      hostObjectTypeHostMap.tryExtract o = some x → o = hostObjectTypeHostMap.inject x) ∧
    (∀ x : U64, hostObjectTypeU64.tryExtract (hostObjectTypeU64.inject x) = some x) ∧
    (∀ (o : HostObject) (x : U64),
      hostObjectTypeU64.tryExtract o = some x → o = hostObjectTypeU64.inject x) ∧
    (∀ x : I64, hostObjectTypeI64.tryExtract (hostObjectTypeI64.inject x) = some x) ∧
    (∀ (o : HostObject) (x : I64),
      hostObjectTypeI64.tryExtract o = some x → o = hostObjectTypeI64.inject x) ∧
    (∀ x : TimePoint,
      hostObjectTypeTimePoint.tryExtract (hostObjectTypeTimePoint.inject x) = some x) ∧
    (∀ (o : HostObject) (x : TimePoint),
      hostObjectTypeTimePoint.tryExtract o = some x → o = hostObjectTypeTimePoint.inject x) ∧
    (∀ x : Duration,
      hostObjectTypeDuration.tryExtract (hostObjectTypeDuration.inject x) = some x) ∧
    (∀ (o : HostObject) (x : Duration),
      hostObjectTypeDuration.tryExtract o = some x → o = hostObjectTypeDuration.inject x) ∧
    (∀ x : U128, hostObjectTypeU128.tryExtract (hostObjectTypeU128.inject x) = some x) ∧
    (∀ (o : HostObject) (x : U128),
      hostObjectTypeU128.tryExtract o = some x → o = hostObjectTypeU128.inject x) ∧
    (∀ x : I128, hostObjectTypeI128.tryExtract (hostObjectTypeI128.inject x) = some x) ∧
    (∀ (o : HostObject) (x : I128),
      hostObjectTypeI128.tryExtract o = some x → o = hostObjectTypeI128.inject x) ∧
    (∀ x : U256, hostObjectTypeU256.tryExtract (hostObjectTypeU256.inject x) = some x) ∧
    (∀ (o : HostObject) (x : U256),
      hostObjectTypeU256.tryExtract o = some x → o = hostObjectTypeU256.inject x) ∧
    (∀ x : I256, hostObjectTypeI256.tryExtract (hostObjectTypeI256.inject x) = some x) ∧
    (∀ (o : HostObject) (x : I256),
      hostObjectTypeI256.tryExtract o = some x → o = hostObjectTypeI256.inject x) ∧
    (∀ x : ScBytes,
      hostObjectTypeScBytes.tryExtract (hostObjectTypeScBytes.inject x) = some x) ∧
    (∀ (o : HostObject) (x : ScBytes),
      hostObjectTypeScBytes.tryExtract o = some x → o = hostObjectTypeScBytes.inject x) ∧
    (∀ x : ScString,
      hostObjectTypeScString.tryExtract (hostObjectTypeScString.inject x) = some x) ∧
    (∀ (o : HostObject) (x : ScString),
      hostObjectTypeScString.tryExtract o = some x → o = hostObjectTypeScString.inject x) ∧
    (∀ x : ScSymbol,
      hostObjectTypeScSymbol.tryExtract (hostObjectTypeScSymbol.inject x) = some x) ∧
    (∀ (o : HostObject) (x : ScSymbol),
      hostObjectTypeScSymbol.tryExtract o = some x → o = hostObjectTypeScSymbol.inject x) ∧
    (∀ x : ScContractExecutable,
      hostObjectTypeScContractExecutable.tryExtract
        (hostObjectTypeScContractExecutable.inject x) = some x) ∧
    (∀ (o : HostObject) (x : ScContractExecutable),
      hostObjectTypeScContractExecutable.tryExtract o = some x →
        o = hostObjectTypeScContractExecutable.inject x) ∧
    (∀ x : ScAddress,
      hostObjectTypeScAddress.tryExtract (hostObjectTypeScAddress.inject x) = some x) ∧
    (∀ (o : HostObject) (x : ScAddress),
      hostObjectTypeScAddress.tryExtract o = some x → o = hostObjectTypeScAddress.inject x) ∧
    (∀ x : ScNonceKey,
      hostObjectTypeScNonceKey.tryExtract (hostObjectTypeScNonceKey.inject x) = some x) ∧
    (∀ (o : HostObject) (x : ScNonceKey),
      hostObjectTypeScNonceKey.tryExtract o = some x → o = hostObjectTypeScNonceKey.inject x) := by
  refine ⟨fun x => rfl, ?_, fun x => rfl, ?_, fun x => rfl, ?_, fun x => rfl, ?_,
    fun x => rfl, ?_, fun x => rfl, ?_, fun x => rfl, ?_, fun x => rfl, ?_,
    fun x => rfl, ?_, fun x => rfl, ?_, fun x => rfl, ?_, fun x => rfl, ?_,
    fun x => rfl, ?_, fun x => rfl, ?_, fun x => rfl, ?_, fun x => rfl, ?_⟩
  all_goals
    intro o x hx
    cases o <;>
      simp_all [hostObjectTypeHostVec, hostObjectTypeHostMap, hostObjectTypeU64,
        hostObjectTypeI64, hostObjectTypeTimePoint, hostObjectTypeDuration,
        hostObjectTypeU128, hostObjectTypeI128, hostObjectTypeU256,
        hostObjectTypeI256, hostObjectTypeScBytes, hostObjectTypeScString,
        hostObjectTypeScSymbol, hostObjectTypeScContractExecutable,
        hostObjectTypeScAddress, hostObjectTypeScNonceKey]

/-- Witness for C10 at a concrete store entry. -/
theorem host_object_inject_extract_witness :
    HostObject.vec ([] : HostVec) = hostObjectTypeHostVec.inject ([] : HostVec) :=
  host_object_inject_extract.2.1 (HostObject.vec []) [] rfl

/-! ### fn_return diagnostic versus the dispatch result (C5) -/

theorem add_host_object_lt (h : HostState) (obj : HostObject)
    (hlt : h.objects.length < handleLimit) :
    h.add_host_object obj =
      ({ h with objects := h.objects ++ [obj] }, Except.ok h.objects.length) := by
  unfold HostState.add_host_object
  rw [if_pos hlt]

theorem add_host_object_full (h : HostState) (obj : HostObject)
    (hge : ¬ h.objects.length < handleLimit) :
    h.add_host_object obj = (h, Except.error objectHandleSpaceError) := by
  unfold HostState.add_host_object
  rw [if_neg hge]

theorem andThen_ok {α β : Type} (h : HostState) (a : α)
    (f : HostState → α → HostState × Except HostError β) :
    andThen (h, Except.ok a) f = f h a := rfl

theorem andThen_error {α β : Type} (h : HostState) (e : HostError)
    (f : HostState → α → HostState × Except HostError β) :
    andThen (h, Except.error e) f = (h, Except.error e) := rfl

theorem exStep_ok {α β : Type} (h : HostState) (a : α)
    (f : α → HostState × Except HostError β) :
    exStep h (Except.ok a) f = f a := rfl

theorem exStep_error {α β : Type} (h : HostState) (e : HostError)
    (f : α → HostState × Except HostError β) :
    exStep h (Except.error e) f = (h, Except.error e) := rfl

theorem andThenOutcome_ok {α : Type} (h : HostState) (a : α)
    (f : HostState → α → HostState × Outcome RawVal) :
    andThenOutcome (h, Except.ok a) f = f h a := rfl

theorem andThenOutcome_error {α : Type} (h : HostState) (e : HostError)
    (f : HostState → α → HostState × Outcome RawVal) :
    andThenOutcome (h, Except.error e) f = (h, Outcome.err e) := rfl

theorem fnReturnStep_ok (h : HostState) (v : RawVal) :
    fnReturnStep (h, Except.ok ()) v = (h, Outcome.ok v) := rfl

theorem fnReturnStep_error (h : HostState) (e : HostError) (v : RawVal) :
    fnReturnStep (h, Except.error e) v = (h, Outcome.err e) := rfl

theorem hCx_objects_length : hCx.objects.length = handleLimit - 3 := by
  show (List.replicate cxObjectsCount dummyObject).length = handleLimit - 3
  rw [List.length_replicate]
  rfl

theorem hCx1_objects_length_succ : hCx1.objects.length = hCx.objects.length + 1 := by
  show (hCx.objects ++ [cxBytesObj]).length = hCx.objects.length + 1
  rw [List.length_append, List.length_singleton]

theorem hCx2_objects_length_succ : hCx2.objects.length = hCx1.objects.length + 1 := by
  show (hCx1.objects ++ [cxTopicsObj]).length = hCx1.objects.length + 1
  rw [List.length_append, List.length_singleton]

theorem hCx4_objects_length_succ : hCx4.objects.length = hCx2.objects.length + 1 := by
  show (hCx2.objects ++ [cxArgsObj]).length = hCx2.objects.length + 1
  rw [List.length_append, List.length_singleton]

theorem hCx_lt : hCx.objects.length < handleLimit := by
  rw [hCx_objects_length]
  norm_num [handleLimit]

theorem hCx1_lt : hCx1.objects.length < handleLimit := by
  rw [hCx1_objects_length_succ, hCx_objects_length]
  norm_num [handleLimit]

theorem hCx2_lt : hCx2.objects.length < handleLimit := by
  rw [hCx2_objects_length_succ, hCx1_objects_length_succ, hCx_objects_length]
  norm_num [handleLimit]

theorem hCx4_full : ¬ hCx4.objects.length < handleLimit := by
  rw [hCx4_objects_length_succ, hCx2_objects_length_succ,
    hCx1_objects_length_succ, hCx_objects_length]
  norm_num [handleLimit]

theorem cx_hash_to_bytesobj :
    hCx.hash_to_bytesobj cxContractId = (hCx1, Except.ok hCx.objects.length) :=
  add_host_object_lt hCx cxBytesObj hCx_lt

theorem cx_add_topics :
    hCx1.add_host_object (HostObject.vec [RawVal.symSmall fnCallSymStr,
      RawVal.obj hCx.objects.length, RawVal.symSmall cxFuncName]) =
      (hCx2, Except.ok hCx1.objects.length) :=
  add_host_object_lt hCx1 cxTopicsObj hCx1_lt

theorem cx_add_args :
    hCx2.add_host_object (HostObject.vec []) = (hCx3, Except.ok hCx2.objects.length) :=
  add_host_object_lt hCx2 cxArgsObj hCx2_lt

theorem call_n_checked_of_reentry_none (h : HostState) (id : Hash)
    (func : String) (args : List RawVal) (mode : ContractReentryMode)
    (ccf : HostState → HostState × Outcome RawVal)
    (hre : reentry_check h id mode = none) :
    h.call_n_checked id func args mode ccf =
      andThenOutcome (h.fn_call_diagnostics id func args) (fun h1 _ =>
        match (ccf h1).2 with
        | Outcome.ok v => fnReturnStep ((ccf h1).1.fn_return_diagnostics id func v) v
        | r => ((ccf h1).1, r)) := by
  unfold HostState.call_n_checked
  rw [hre]

/-- The "fn_call" diagnostic on `hCx` succeeds, storing three objects and
recording one event. -/
theorem cx_fn_call_diag :
    hCx.fn_call_diagnostics cxContractId cxFuncName [] = (hCx4, Except.ok ()) := by
  unfold HostState.fn_call_diagnostics
  rw [if_neg (by decide)]
  have hcc : hCx.current_contract_bytesobject_option =
      (hCx, Except.ok (none : Option Nat)) := rfl
  have hsym : SymbolSmall.try_from_str fnCallSymStr =
      Except.ok (RawVal.symSmall fnCallSymStr) := rfl
  rw [hcc, andThen_ok]
  rw [hsym, exStep_ok]
  rw [cx_hash_to_bytesobj, andThen_ok]
  rw [cx_add_topics, andThen_ok]
  rw [cx_add_args, andThen_ok]
  rfl

/-- The "fn_return" diagnostic on the post-call state `hCx4` fails: the
object store is full, so the return-payload bytes object cannot be built. -/
theorem cx_fn_return_diag :
    hCx4.fn_return_diagnostics cxContractId cxFuncName RawVal.void =
      (hCx4, Except.error objectHandleSpaceError) := by
  unfold HostState.fn_return_diagnostics
  rw [if_neg (by decide)]
  have hsym : SymbolSmall.try_from_str fnReturnSymStr =
      Except.ok (RawVal.symSmall fnReturnSymStr) := rfl
  have hadd : hCx4.hash_to_bytesobj cxContractId =
      (hCx4, Except.error objectHandleSpaceError) :=
    add_host_object_full hCx4 cxBytesObj hCx4_full
  rw [hsym, exStep_ok]
  rw [hadd, andThen_error]

/-- C5 counterexample: the dispatched call succeeds (`dispatchOk` returns
`Ok(void)` from the state left by the "fn_call" diagnostic), yet
`call_n_internal` reports the "fn_return" diagnostic-construction failure —
frame.rs line 489 applies `?` to `fn_return_diagnostics`, replacing the
successful result with the diagnostic error. -/
theorem fn_return_diag_replaces_ok_cx :
    (hCx.call_n_internal cxContractId cxFuncName [] ContractReentryMode.allowed
        true dispatchOk).2 = Outcome.err objectHandleSpaceError ∧
    (dispatchOk hCx4).2 = Outcome.ok RawVal.void := by
  refine ⟨?_, rfl⟩
  have hskip : hCx.call_n_internal cxContractId cxFuncName []
      ContractReentryMode.allowed true dispatchOk =
      hCx.call_n_checked cxContractId cxFuncName [] ContractReentryMode.allowed
        dispatchOk := by
    unfold HostState.call_n_internal
    rw [if_neg]
    rintro ⟨hfalse, -⟩
    exact Bool.noConfusion hfalse
  rw [hskip, call_n_checked_of_reentry_none hCx cxContractId cxFuncName []
    ContractReentryMode.allowed dispatchOk rfl]
  rw [cx_fn_call_diag, andThenOutcome_ok]
  show (fnReturnStep (hCx4.fn_return_diagnostics cxContractId cxFuncName
      RawVal.void) RawVal.void).2 = Outcome.err objectHandleSpaceError
  rw [cx_fn_return_diag, fnReturnStep_error]

/-- C5 (amended). Once the reserved-name gate, the re-entrancy check and the
"fn_call" diagnostic have passed, the "fn_return" diagnostic is invoked only
when the dispatched call succeeds — a failed dispatch is returned untouched —
but the diagnostic is not harmless on the success path: a diagnostic-
construction failure is propagated and replaces the successful result (the
spec's explicitly-propagated payload-construction failure). -/
theorem call_n_internal_fn_return_protocol (h : HostState) (id : Hash)
    (func : String) (args : List RawVal) (mode : ContractReentryMode)
    (dispatch : HostState → HostState × Outcome RawVal) (h1 : HostState)
    (hreentry : reentry_check h id mode = none)
    (hdiag : h.fn_call_diagnostics id func args = (h1, Except.ok ())) :
    (∀ h2 e, dispatch h1 = (h2, Outcome.err e) →
      h.call_n_internal id func args mode true dispatch = (h2, Outcome.err e)) ∧
    (∀ h2 v, dispatch h1 = (h2, Outcome.ok v) →
      h.call_n_internal id func args mode true dispatch =
        fnReturnStep (h2.fn_return_diagnostics id func v) v) := by
  have hskip : h.call_n_internal id func args mode true dispatch =
      h.call_n_checked id func args mode dispatch := by
    unfold HostState.call_n_internal
    rw [if_neg]
    rintro ⟨hfalse, -⟩
    exact Bool.noConfusion hfalse
  constructor
  · intro h2 e hd
    rw [hskip]
    unfold HostState.call_n_checked
    simp only [hreentry, hdiag, andThenOutcome_ok, hd]
  · intro h2 v hd
    rw [hskip]
    unfold HostState.call_n_checked
    simp only [hreentry, hdiag, andThenOutcome_ok, hd]

/-- Witness for C5 (amended): a failed dispatch is returned untouched. -/
theorem call_n_internal_fn_return_protocol_witness :
    sampleState.call_n_internal sampleContractId sampleFuncName []
        ContractReentryMode.allowed true dispatchErr =
      (sampleState, Outcome.err sampleHostError) :=
  (call_n_internal_fn_return_protocol sampleState sampleContractId sampleFuncName
      [] ContractReentryMode.allowed dispatchErr sampleState rfl rfl).1
    sampleState sampleHostError rfl

end Soroban
